import Mathlib

/-!
# unistore, React integration (`src/integrations/react.js`)

A shallow embedding of `connect` (the wrapper component it builds) and of
`Provider`.

Modelling decisions.

* A JavaScript value is a `Val`: the primitives, `ref a` for an object or a
  function identified by its address `a`, and `builtin n` for a built-in
  object or function such as `Object`.  Strict equality `===` is `strictEq`.
  Numbers are the integers and `NaN` (the one value that is not strictly
  equal to itself); other doubles are not modelled.
* An object is an `Obj`, what the three operations of the source see of it:
  its own enumerable properties, the enumerable properties it inherits, and
  the non-enumerable members a read finds on it or up its prototype chain
  (for a plain object those of `Object.prototype`).  `for (k in o)` runs over
  `Obj.keys` (own and inherited enumerable keys), `o[k]` is `Obj.get` and
  `k in o` is `Obj.has`, both following the prototype chain.  Accessors and
  proxies are not modelled.
* `getInitialState`, `update` and the lifecycle methods only read objects and
  rebind fields of `this`, so the wrapper holds the contents of `this.props`,
  `this.state` and `this.boundActions`.  `render` calls `assign`, which writes
  into an object, so `render` runs on a `Heap` and takes the three objects by
  address.
* The store, `util.assign` and `util.mapActions` are not among the sources;
  they are modelled from the specification or taken as parameters, as said at
  each definition.  `createElement` is React's.
-/

namespace Unistore

/-! ## Values and objects -/

/-- Address of an object (or function) on the heap. -/
abbrev Addr := Nat

/-- JavaScript values. -/
inductive Val where
  | undefined
  | null
  | bool (b : Bool)
  | num (n : Int)
  | nan
  | str (s : String)
  | ref (a : Addr)
  | builtin (name : String)
  deriving DecidableEq, Repr

/-- Strict equality `a === b`. -/
def strictEq : Val → Val → Bool
  | Val.undefined, Val.undefined => true
  | Val.null, Val.null => true
  | Val.bool a, Val.bool b => a == b
  | Val.num a, Val.num b => a == b
  | Val.str a, Val.str b => a == b
  | Val.ref a, Val.ref b => a == b
  | Val.builtin a, Val.builtin b => a == b
  | _, _ => false

/-- Properties by key, in order. -/
abbrev Members := List (String × Val)

/-- The first binding of a key. -/
def Members.lookup : Members → String → Option Val
  | [], _ => none
  | (k', v) :: rest, k => if k' = k then some v else Members.lookup rest k

/-- Overwrite the binding of a key in place, or append one. -/
def Members.set : Members → String → Val → Members
  | [], k, v => [(k, v)]
  | (k', v') :: rest, k, v =>
    if k' = k then (k, v) :: rest else (k', v') :: Members.set rest k v

/-- An object as property reads, `in` and `for`-`in` see it: `own`, its own
enumerable properties in enumeration order; `inherited`, the enumerable
properties it inherits and does not shadow; `hidden`, the non-enumerable
members found on it or up its prototype chain. -/
structure Obj where
  own : Members
  inherited : Members
  hidden : Members
  deriving DecidableEq, Repr

/-- The members of `Object.prototype`, none of them enumerable. -/
def objectPrototype : Members :=
  [("constructor", Val.builtin "Object"),
   ("__defineGetter__", Val.builtin "Object.prototype.__defineGetter__"),
   ("__defineSetter__", Val.builtin "Object.prototype.__defineSetter__"),
   ("hasOwnProperty", Val.builtin "Object.prototype.hasOwnProperty"),
   ("__lookupGetter__", Val.builtin "Object.prototype.__lookupGetter__"),
   ("__lookupSetter__", Val.builtin "Object.prototype.__lookupSetter__"),
   ("isPrototypeOf", Val.builtin "Object.prototype.isPrototypeOf"),
   ("propertyIsEnumerable", Val.builtin "Object.prototype.propertyIsEnumerable"),
   ("toString", Val.builtin "Object.prototype.toString"),
   ("valueOf", Val.builtin "Object.prototype.valueOf"),
   ("__proto__", Val.builtin "Object.prototype"),
   ("toLocaleString", Val.builtin "Object.prototype.toLocaleString")]

/-- An object literal with the given properties: a plain object, whose
prototype is `Object.prototype`. -/
def Obj.plain (own : Members) : Obj :=
  { own := own, inherited := [], hidden := objectPrototype }

/-- The member a key resolves to: the own property, else the inherited
enumerable one, else the non-enumerable one. -/
def Obj.lookup (o : Obj) (k : String) : Option Val :=
  match o.own.lookup k with
  | some v => some v
  | none =>
    match o.inherited.lookup k with
    | some v => some v
    | none => o.hidden.lookup k

/-- The read `o[k]`: `undefined` when nothing is found on the object or up
its prototype chain. -/
def Obj.get (o : Obj) (k : String) : Val :=
  match o.lookup k with
  | some v => v
  | none => Val.undefined

/-- The test `k in o`: own or inherited, enumerable or not. -/
def Obj.has (o : Obj) (k : String) : Bool :=
  (o.lookup k).isSome

/-- The test `hasOwnProperty.call(o, k)` for an enumerable key. -/
def Obj.hasOwn (o : Obj) (k : String) : Bool :=
  (o.own.lookup k).isSome

/-- The keys `for (k in o)` enumerates: the own enumerable keys, then the
inherited enumerable ones. -/
def Obj.keys (o : Obj) : List String :=
  o.own.map Prod.fst ++ o.inherited.map Prod.fst

/-- The write `o[k] = v` of an ordinary data property: it overwrites the own
property, or creates one.  A write to `__proto__` goes to the accessor of
`Object.prototype` instead; the statements about written keys leave that key
out. -/
def Obj.set (o : Obj) (k : String) (v : Val) : Obj :=
  { o with own := o.own.set k v }

/-! ## The store -/

/-- Identity of a listener: the bound `update` method of one wrapper instance
(`createReactClass` binds it once per instance). -/
abbrev Callback := Nat

/-- Modelled from the spec: the store is not among the sources.  It holds the
current state snapshot and the registered listeners, in registration order,
each at most once. -/
structure Store where
  state : Obj
  listeners : List Callback
  deriving DecidableEq, Repr

/-- Modelled from the spec: `getState()` returns the current snapshot. -/
def Store.getState (s : Store) : Obj :=
  s.state

/-- Modelled from the spec: `subscribe(listener)` adds the listener unless it
is already registered. -/
def Store.subscribe (s : Store) (listener : Callback) : Store :=
  if listener ∈ s.listeners then s
  else { s with listeners := s.listeners ++ [listener] }

/-- Modelled from the spec: `unsubscribe(listener)` removes the listener; a
no-op when it is not registered. -/
def Store.unsubscribe (s : Store) (listener : Callback) : Store :=
  { s with listeners := s.listeners.filter (fun l => l != listener) }

/-- The stores of the program, by address. -/
abbrev Stores := Addr → Store

/-! ## `connect` -/

/-- The closure of `connect(mapStateToProps, actions)`: `mapStateToProps`
after line 23-25 made it a function, and `actions`.  `util.mapActions` is not
among the sources: a truthy `actions` is carried as the function
`store ↦ mapActions(actions, store)`. -/
structure Connect where
  mapStateToProps : Obj → Obj → Obj
  actions : Option (Option Addr → Obj)

/-- The fields of a wrapper instance (`this`). -/
structure Wrapper where
  store : Option Addr
  props : Obj
  state : Obj
  boundActions : Obj
  deriving DecidableEq, Repr

/-- The value of `this.store` as a property value. -/
def storeVal : Option Addr → Val
  | some a => Val.ref a
  | none => Val.undefined

/-- The expression `this.store ? this.store.getState() : {}`. -/
def readState (stores : Stores) : Option Addr → Obj
  | some a => (stores a).getState
  | none => Obj.plain []

/-- The context a component receives: `CONTEXT_TYPES` declares the one key
`store`, absent (`none`) when no provider is above the component. -/
structure Context where
  store : Option Addr
  deriving DecidableEq, Repr

/-- Lines 28-32.  The context and the props are what React set on the
instance; the result is the instance after the three assignments, and the
value the function returns: it has no `return`, so `none` (undefined). -/
def getInitialState (c : Connect) (stores : Stores) (context : Context)
    (props : Obj) : Wrapper × Option Obj :=
  let store := context.store
  let state := c.mapStateToProps (readState stores store) props
  let boundActions :=
    match c.actions with
    | some bind => bind store
    | none => Obj.plain [("store", storeVal store)]
  ({ store := store, props := props, state := state, boundActions := boundActions }, none)

/-- The value `mapped` of line 34. -/
def mappedOf (c : Connect) (stores : Stores) (this : Wrapper) : Obj :=
  c.mapStateToProps (readState stores this.store) this.props

/-- Lines 33-43.  The result is the instance afterwards and whether
`forceUpdate()` was called. -/
def update (c : Connect) (stores : Stores) (this : Wrapper) : Wrapper × Bool :=
  let mapped := mappedOf c stores this
  if mapped.keys.any (fun i => !strictEq (mapped.get i) (this.state.get i)) then
    ({ this with state := mapped }, true)
  else if this.state.keys.any (fun i => !mapped.has i) then
    ({ this with state := mapped }, true)
  else
    (this, false)

/-- Lines 47-50. -/
def componentWillReceiveProps (c : Connect) (stores : Stores) (this : Wrapper)
    (p : Obj) : Wrapper × Bool :=
  update c stores { this with props := p }

/-- A JavaScript exception. -/
inductive JsError where
  | typeError
  deriving DecidableEq, Repr

/-- Lines 44-46: `this.store.subscribe(this.update)`.  Reading `subscribe`
of an undefined `this.store` throws a TypeError. -/
def componentDidMount (stores : Stores) (this : Wrapper) (updateCb : Callback) :
    Except JsError Stores :=
  match this.store with
  | none => Except.error JsError.typeError
  | some a => Except.ok (Function.update stores a ((stores a).subscribe updateCb))

/-- Lines 51-53: `this.store.unsubscribe(this.update)`. -/
def componentWillUnmount (stores : Stores) (this : Wrapper) (updateCb : Callback) :
    Except JsError Stores :=
  match this.store with
  | none => Except.error JsError.typeError
  | some a => Except.ok (Function.update stores a ((stores a).unsubscribe updateCb))

/-! ## `Provider` -/

/-- The props of a `Provider`: the store to expose and the children. -/
structure ProviderProps where
  store : Option Addr
  children : List Addr
  deriving DecidableEq, Repr

/-- Lines 73-75: `return { store: this.props.store }`. -/
def Provider.getChildContext (props : ProviderProps) : Context :=
  { store := props.store }

/-! ## The heap, `assign`, `createElement` and `render` -/

/-- The objects of the program by address; `next` is the first free address. -/
structure Heap where
  cells : Addr → Obj
  next : Addr

/-- The contents of the object at an address. -/
def Heap.read (h : Heap) (a : Addr) : Obj :=
  h.cells a

/-- Replace the contents of the object at an address. -/
def Heap.write (h : Heap) (a : Addr) (o : Obj) : Heap :=
  { h with cells := Function.update h.cells a o }

/-- A new object, at the first free address. -/
def Heap.alloc (h : Heap) (o : Obj) : Heap × Addr :=
  ({ cells := Function.update h.cells h.next o, next := h.next + 1 }, h.next)

/-- Modelled from the spec: the shallow merge of `util.assign`, which is not
among the sources, on contents: `for (i in props) obj[i] = props[i]`.  Every
key `props` enumerates is written into `obj`, overwriting the key when `obj`
has it; the other keys of `obj` are kept. -/
def assignObj (obj props : Obj) : Obj :=
  props.keys.foldl (fun o i => o.set i (props.get i)) obj

/-- Modelled from the spec: `util.assign(obj, props)`, not among the sources.
It merges `props` into the object `obj` itself and returns `obj`, as the call
`assign({}, ...)` of line 55 relies on. -/
def assign (h : Heap) (obj props : Addr) : Heap × Addr :=
  (h.write obj (assignObj (h.read obj) (h.read props)), obj)

/-- The component `Child` handed to the function `connect` returns: its
identity and its `defaultProps`, when it declares any. -/
structure Component where
  id : Addr
  defaultProps : Option Obj
  deriving DecidableEq, Repr

/-- A React element: the component to render and the props object it will
receive. -/
structure Element where
  type : Addr
  props : Addr
  deriving DecidableEq, Repr

/-- The keys React's `createElement` reads for itself and never copies into
the props (`RESERVED_PROPS`). -/
def reservedProps : List String :=
  ["key", "ref", "__self", "__source"]

/-- The first loop of React's `createElement` (React is not among the
sources): into a new props object, every own enumerable key of `config` that
is not reserved is copied,
`for (propName in config) if (hasOwnProperty.call(config, propName) &&
!RESERVED_PROPS.hasOwnProperty(propName)) props[propName] = config[propName]`. -/
def copyProps (cfg : Obj) : Obj :=
  cfg.keys.foldl
    (fun p k => if cfg.hasOwn k && !reservedProps.contains k then p.set k (cfg.get k) else p)
    (Obj.plain [])

/-- The second loop of React's `createElement`: when the component declares
`defaultProps`, every key of them whose prop reads undefined is filled in,
`for (propName in defaultProps) if (props[propName] === undefined)
props[propName] = defaultProps[propName]`. -/
def fillDefaults (defaultProps : Option Obj) (props : Obj) : Obj :=
  match defaultProps with
  | some dp =>
    dp.keys.foldl
      (fun p k => if strictEq (p.get k) Val.undefined then p.set k (dp.get k) else p)
      props
  | none => props

/-- React's `createElement(type, config)` without children: the element of
`type` with the new props object the two loops build. -/
def createElement (h : Heap) (child : Component) (config : Addr) : Heap × Element :=
  let props := fillDefaults child.defaultProps (copyProps (h.read config))
  let a := h.alloc props
  (a.1, { type := child.id, props := a.2 })

/-- The keys of the `defaultProps` of a component; none when it declares no
`defaultProps`. -/
def Component.defaultKeys (child : Component) : List String :=
  match child.defaultProps with
  | some dp => dp.keys
  | none => []

/-- The object-valued fields of a wrapper instance, by address. -/
structure WrapperRefs where
  boundActions : Addr
  props : Addr
  state : Addr
  deriving DecidableEq, Repr

/-- Lines 54-56:
`createElement(Child, assign(assign(assign({}, this.boundActions), this.props), this.state))`. -/
def render (child : Component) (h : Heap) (this : WrapperRefs) : Heap × Element :=
  let a0 := h.alloc (Obj.plain [])
  let a1 := assign a0.1 a0.2 this.boundActions
  let a2 := assign a1.1 a1.2 this.props
  let a3 := assign a2.1 a2.2 this.state
  createElement a3.1 child a3.2

/-- The props object `Child` receives: that of the element `render`
returns, read after `render`. -/
def childProps (child : Component) (h : Heap) (this : WrapperRefs) : Obj :=
  (render child h this).1.read (render child h this).2.props

/-- The value the merge of line 55 holds at a key: that of the mapped state
when it enumerates the key, else that of the own props, else that of the
bound actions; none when none of the three enumerates the key. -/
def mergedAt (boundActions props state : Obj) (k : String) : Option Val :=
  if k ∈ state.keys then some (state.get k)
  else if k ∈ props.keys then some (props.get k)
  else if k ∈ boundActions.keys then some (boundActions.get k)
  else none

/-- Structural equality of two values to a given depth: equal primitives,
or two objects with the same keys and structurally equal values. -/
def deepEq (h : Heap) : Nat → Val → Val → Bool
  | fuel + 1, Val.ref a, Val.ref b =>
    (h.read a).keys.all (fun k => (h.read b).keys.contains k
      && deepEq h fuel ((h.read a).get k) ((h.read b).get k))
    && (h.read b).keys.all (fun k => (h.read a).keys.contains k)
  | 0, Val.ref _, Val.ref _ => false
  | _, a, b => strictEq a b

/-! ## A store with its subscribers -/

/-- Modelled from the spec: `setState(patch)` on the store itself, the
shallow merge of the current state and then of the patch into a new
mapping. -/
def Store.setState (s : Store) (patch : Obj) : Store :=
  { s with state := assignObj (assignObj (Obj.plain []) s.state) patch }

/-- The stores, and the wrapper instances by the identity of their bound
`update`; each instance with the closure of the `connect` call that made its
class. -/
structure World where
  stores : Stores
  conns : Callback → Connect
  wrappers : Callback → Wrapper

/-- A listener is called: `update` of its wrapper runs. -/
def World.invoke (w : World) (cb : Callback) : World :=
  let this := (update (w.conns cb) w.stores (w.wrappers cb)).1
  { w with wrappers := Function.update w.wrappers cb this }

/-- Modelled from the spec: the notification loop of `setState`, calling the
listeners one after the other; the second component lists the calls made. -/
def World.notify (w : World) : List Callback → World × List Callback
  | [] => (w, [])
  | cb :: rest =>
    let r := World.notify (w.invoke cb) rest
    (r.1, cb :: r.2)

/-- Modelled from the spec: `store.setState(patch)` for the store at `a`:
merge, replace the state, then notify every registered listener.  The second
component lists the listener calls made. -/
def World.setState (w : World) (a : Addr) (patch : Obj) : World × List Callback :=
  let w1 : World :=
    { w with stores := Function.update w.stores a ((w.stores a).setState patch) }
  w1.notify (w1.stores a).listeners

/-- What can happen to the world. -/
inductive Event where
  | setState (a : Addr) (patch : Obj)
  | construct (cb : Callback) (context : Context) (props : Obj)
  | didMount (cb : Callback)
  | receiveProps (cb : Callback) (p : Obj)
  | willUnmount (cb : Callback)
  deriving DecidableEq, Repr

/-- One event. -/
def World.step (w : World) : Event → Except JsError World
  | Event.setState a patch => Except.ok (w.setState a patch).1
  | Event.construct cb context props =>
    let this := (getInitialState (w.conns cb) w.stores context props).1
    Except.ok { w with wrappers := Function.update w.wrappers cb this }
  | Event.didMount cb =>
    match componentDidMount w.stores (w.wrappers cb) cb with
    | Except.ok s => Except.ok { w with stores := s }
    | Except.error e => Except.error e
  | Event.receiveProps cb p =>
    let this := (componentWillReceiveProps (w.conns cb) w.stores (w.wrappers cb) p).1
    Except.ok { w with wrappers := Function.update w.wrappers cb this }
  | Event.willUnmount cb =>
    match componentWillUnmount w.stores (w.wrappers cb) cb with
    | Except.ok s => Except.ok { w with stores := s }
    | Except.error e => Except.error e

/-- A sequence of events, stopping at the first exception. -/
def World.run (w : World) : List Event → Except JsError World
  | [] => Except.ok w
  | e :: es =>
    match w.step e with
    | Except.ok w1 => World.run w1 es
    | Except.error err => Except.error err

/-- The event is not the construction, mount or unmount of the wrapper `cb`. -/
def Event.foreignTo (cb : Callback) : Event → Bool
  | Event.construct cb' _ _ => cb' != cb
  | Event.didMount cb' => cb' != cb
  | Event.willUnmount cb' => cb' != cb
  | _ => true

/-! ## Sample inputs and the change condition -/

/-- No store holds any state or listener. -/
def noStores : Stores :=
  fun _ => { state := Obj.plain [], listeners := [] }

/-- A `connect` closure whose `mapStateToProps` returns the given object. -/
def constConnect (mapped : Obj) : Connect :=
  { mapStateToProps := fun _ _ => mapped, actions := none }

/-- A wrapper without store, with props `{}` and bound actions `{}`, and
with the given stored state. -/
def bareWrapper (state : Obj) : Wrapper :=
  { store := none, props := Obj.plain [], state := state, boundActions := Obj.plain [] }

/-- A heap holding the object `{x: 1}` at address 1 and again at address 2. -/
def twinHeap : Heap :=
  { cells := fun a => if a = 1 ∨ a = 2 then Obj.plain [("x", Val.num 1)] else Obj.plain [],
    next := 3 }

/-- A heap with bound actions `{go: f}` at 0, own props `{a: 1, b: 2}` at 1
and mapped state `{b: 3}` at 2. -/
def sampleHeap : Heap :=
  { cells := fun a =>
      if a = 0 then Obj.plain [("go", Val.ref 9)]
      else if a = 1 then Obj.plain [("a", Val.num 1), ("b", Val.num 2)]
      else if a = 2 then Obj.plain [("b", Val.num 3)]
      else Obj.plain [],
    next := 3 }

/-- A heap with bound actions `{}` at 0, own props `{}` at 1 and mapped state
`{key: "k1"}` at 2. -/
def keyHeap : Heap :=
  { cells := fun a => if a = 2 then Obj.plain [("key", Val.str "k1")] else Obj.plain [],
    next := 3 }

/-- A world with one empty store and wrappers of `connect()` attached to the
store at address 0, none of them mounted. -/
def sampleWorld : World :=
  { stores := noStores,
    conns := fun _ => constConnect (Obj.plain []),
    wrappers := fun _ =>
      { store := some 0, props := Obj.plain [], state := Obj.plain [],
        boundActions := Obj.plain [] } }

/-- The condition under which the loops of `update` reach an assignment: a
key `mapped` enumerates whose value is not strictly equal to the read of the
stored state at that key, or a key the stored state enumerates that is not
`in mapped`. -/
def differs (mapped state : Obj) : Prop :=
  (∃ k, k ∈ mapped.keys ∧ strictEq (mapped.get k) (state.get k) = false)
    ∨ (∃ k, k ∈ state.keys ∧ mapped.has k = false)

/-! ## Objects: lookup lemmas -/

theorem Members.mem_keys_iff (m : Members) (k : String) :
    k ∈ m.map Prod.fst ↔ (m.lookup k).isSome = true := by
  induction m with
  | nil => simp [Members.lookup]
  | cons e rest ih =>
    obtain ⟨k', v⟩ := e
    by_cases hk : k' = k
    · simp [Members.lookup, hk]
    · have hk' : ¬ k = k' := fun h => hk h.symm
      simp [Members.lookup, hk, hk', ih]

theorem Obj.has_of_mem_keys {o : Obj} {k : String} (h : k ∈ o.keys) : o.has k = true := by
  unfold Obj.keys at h
  unfold Obj.has Obj.lookup
  rcases List.mem_append.1 h with h1 | h1
  · have h2 := (Members.mem_keys_iff o.own k).1 h1
    cases hl : o.own.lookup k with
    | none => simp [hl] at h2
    | some v => rfl
  · have h2 := (Members.mem_keys_iff o.inherited k).1 h1
    cases hl : o.own.lookup k with
    | some v => rfl
    | none =>
      cases hi : o.inherited.lookup k with
      | none => simp [hi] at h2
      | some v => rfl

theorem strictEq_eq {a b : Val} (h : strictEq a b = true) : a = b := by
  cases a <;> cases b <;> simp_all [strictEq]

/-! ## `update`: the two outcomes -/

theorem update_of_differs (c : Connect) (stores : Stores) (this : Wrapper)
    (h : differs (mappedOf c stores this) this.state) :
    update c stores this = ({ this with state := mappedOf c stores this }, true) := by
  unfold update
  by_cases h1 : (mappedOf c stores this).keys.any
      (fun i => !strictEq ((mappedOf c stores this).get i) (this.state.get i)) = true
  · simp [h1]
  · have h2 : this.state.keys.any (fun i => !(mappedOf c stores this).has i) = true := by
      rcases h with ⟨k, hk, hv⟩ | ⟨k, hk, hv⟩
      · exact absurd (List.any_eq_true.2 ⟨k, hk, by simp [hv]⟩) h1
      · exact List.any_eq_true.2 ⟨k, hk, by simp [hv]⟩
    simp [h1, h2]

theorem update_of_not_differs (c : Connect) (stores : Stores) (this : Wrapper)
    (h : ¬ differs (mappedOf c stores this) this.state) :
    update c stores this = (this, false) := by
  unfold update
  have h1 : ¬ (mappedOf c stores this).keys.any
      (fun i => !strictEq ((mappedOf c stores this).get i) (this.state.get i)) = true := by
    intro hh
    obtain ⟨k, hk, hv⟩ := List.any_eq_true.1 hh
    exact h (Or.inl ⟨k, hk, by simpa using hv⟩)
  have h2 : ¬ this.state.keys.any (fun i => !(mappedOf c stores this).has i) = true := by
    intro hh
    obtain ⟨k, hk, hv⟩ := List.any_eq_true.1 hh
    exact h (Or.inr ⟨k, hk, by simpa using hv⟩)
  simp [h1, h2]

theorem update_store (c : Connect) (stores : Stores) (this : Wrapper) :
    (update c stores this).1.store = this.store := by
  by_cases h : differs (mappedOf c stores this) this.state
  · rw [update_of_differs c stores this h]
  · rw [update_of_not_differs c stores this h]

/-! ## Claims about `update` -/

/-- C1, as stated, fails: with stored state `{}` and mapped result
`{a: undefined}` the key `a` is added (in mapped, not in the stored state),
yet `update` neither replaces the stored state nor forces a re-render, since
`mapped.a !== this.state.a` compares undefined with undefined. -/
theorem update_misses_added_undefined_key :
    "a" ∈ (mappedOf (constConnect (Obj.plain [("a", Val.undefined)])) noStores
        (bareWrapper (Obj.plain []))).keys
    ∧ "a" ∉ (bareWrapper (Obj.plain [])).state.keys
    ∧ update (constConnect (Obj.plain [("a", Val.undefined)])) noStores
        (bareWrapper (Obj.plain []))
        = (bareWrapper (Obj.plain []), false)
    ∧ update (constConnect (Obj.plain [("a", Val.undefined)])) noStores
        (bareWrapper (Obj.plain []))
        ≠ ({ bareWrapper (Obj.plain []) with state := Obj.plain [("a", Val.undefined)] },
            true) := by
  refine ⟨?_, ?_, ?_, ?_⟩
  · decide
  · decide
  · decide
  · decide

/-- C1 (amended): `update` replaces the stored state with the mapped result
and forces a re-render when the two differ by a key added (enumerated by
mapped, not by the stored state) whose mapped value is not strictly equal to
what the stored state reads at that key (undefined, or the member it
inherits under that name), by a key removed (enumerated by the stored state)
that is not `in` mapped, own or inherited, or by a key of both whose values
are not strictly equal. -/
theorem update_rerenders_on_difference (c : Connect) (stores : Stores) (this : Wrapper)
    (h : (∃ k, k ∈ (mappedOf c stores this).keys ∧ k ∉ this.state.keys
            ∧ strictEq ((mappedOf c stores this).get k) (this.state.get k) = false)
        ∨ (∃ k, k ∈ this.state.keys ∧ (mappedOf c stores this).has k = false)
        ∨ (∃ k, k ∈ (mappedOf c stores this).keys ∧ k ∈ this.state.keys
            ∧ strictEq ((mappedOf c stores this).get k) (this.state.get k) = false)) :
    update c stores this = ({ this with state := mappedOf c stores this }, true) := by
  apply update_of_differs
  rcases h with ⟨k, hm, _, hv⟩ | ⟨k, hs, hm⟩ | ⟨k, hm, _, hv⟩
  · exact Or.inl ⟨k, hm, hv⟩
  · exact Or.inr ⟨k, hs, hm⟩
  · exact Or.inl ⟨k, hm, hv⟩

/-- Witness of C1 (amended): stored `{a: 1}`, mapped `{a: 2}`. -/
theorem update_rerenders_on_difference_witness :
    update (constConnect (Obj.plain [("a", Val.num 2)])) noStores
        (bareWrapper (Obj.plain [("a", Val.num 1)]))
      = ({ bareWrapper (Obj.plain [("a", Val.num 1)]) with
            state := mappedOf (constConnect (Obj.plain [("a", Val.num 2)])) noStores
              (bareWrapper (Obj.plain [("a", Val.num 1)])) }, true) :=
  update_rerenders_on_difference _ _ _
    (Or.inr (Or.inr ⟨"a", by decide, by decide, by decide⟩))

/-- C2: when the mapped result and the stored state have the same keys and a
strictly equal value at every key, `update` forces no re-render and leaves
the wrapper, its stored state included, as it was. -/
theorem update_noop_when_shallow_equal (c : Connect) (stores : Stores) (this : Wrapper)
    (hkeys : ∀ k, k ∈ (mappedOf c stores this).keys ↔ k ∈ this.state.keys)
    (hvals : ∀ k, k ∈ (mappedOf c stores this).keys →
      strictEq ((mappedOf c stores this).get k) (this.state.get k) = true) :
    update c stores this = (this, false) := by
  apply update_of_not_differs
  rintro (⟨k, hm, hv⟩ | ⟨k, hs, hm⟩)
  · rw [hvals k hm] at hv
    exact absurd hv (by decide)
  · rw [Obj.has_of_mem_keys ((hkeys k).2 hs)] at hm
    exact absurd hm (by decide)

/-- Witness of C2: stored `{a: 1}`, mapped `{a: 1}`. -/
theorem update_noop_when_shallow_equal_witness :
    update (constConnect (Obj.plain [("a", Val.num 1)])) noStores
        (bareWrapper (Obj.plain [("a", Val.num 1)]))
      = (bareWrapper (Obj.plain [("a", Val.num 1)]), false) :=
  update_noop_when_shallow_equal _ _ _
    (fun _ => Iff.rfl)
    (by
      intro k hk
      have hk' : k = "a" := by
        simpa [mappedOf, constConnect, Obj.keys, Obj.plain] using hk
      subst hk'
      decide)

/-- C7: the comparison is by identity.  The stored state `{a: o1}` and the
mapped result `{a: o2}`, where `o1` and `o2` are two objects `{x: 1}`, hold
structurally equal values at `a` that are not the same reference, and
`update` replaces the stored state and forces a re-render. -/
theorem update_compares_by_reference :
    ∃ (h : Heap) (stored mapped : Obj) (k : String) (a b : Addr),
      stored.get k = Val.ref a ∧ mapped.get k = Val.ref b ∧ a ≠ b
      ∧ deepEq h 1 (stored.get k) (mapped.get k) = true
      ∧ strictEq (mapped.get k) (stored.get k) = false
      ∧ update (constConnect mapped) noStores (bareWrapper stored)
          = ({ bareWrapper stored with state := mapped }, true) :=
  ⟨twinHeap, Obj.plain [("a", Val.ref 1)], Obj.plain [("a", Val.ref 2)], "a", 1, 2,
    by decide, by decide, by decide, by decide, by decide, by decide⟩

/-- C8, as stated, fails: with stored state `{constructor: 1}` and mapped
result `{}`, `'constructor' in mapped` is true through `Object.prototype`, so
`update` leaves the stored state alone, and afterwards the stored state has
the key `constructor`, which is not a key of mapped. -/
theorem update_keeps_key_named_like_inherited_member :
    update (constConnect (Obj.plain [])) noStores
        (bareWrapper (Obj.plain [("constructor", Val.num 1)]))
      = (bareWrapper (Obj.plain [("constructor", Val.num 1)]), false)
    ∧ "constructor" ∈ (update (constConnect (Obj.plain [])) noStores
        (bareWrapper (Obj.plain [("constructor", Val.num 1)]))).1.state.keys
    ∧ "constructor" ∉ (mappedOf (constConnect (Obj.plain [])) noStores
        (bareWrapper (Obj.plain [("constructor", Val.num 1)]))).keys := by
  refine ⟨?_, ?_, ?_⟩
  · decide
  · decide
  · decide

/-- C8 (amended): after `update`, forced or not, every key of the stored
state is `in` the mapped result, as an own or an inherited member, and at
every key of the mapped result the stored state reads (on itself or up its
prototype chain, undefined when nothing is found) the same value as the
mapped result. -/
theorem update_state_agrees_with_mapped (c : Connect) (stores : Stores) (this : Wrapper) :
    (∀ k, k ∈ (update c stores this).1.state.keys →
        (mappedOf c stores this).has k = true)
    ∧ (∀ k, k ∈ (mappedOf c stores this).keys →
        (update c stores this).1.state.get k = (mappedOf c stores this).get k) := by
  by_cases h : differs (mappedOf c stores this) this.state
  · rw [update_of_differs c stores this h]
    exact ⟨fun k hk => Obj.has_of_mem_keys hk, fun k _ => rfl⟩
  · rw [update_of_not_differs c stores this h]
    constructor
    · intro k hk
      by_contra hm
      exact h (Or.inr ⟨k, hk, by simpa using hm⟩)
    · intro k hk
      by_contra hv
      refine h (Or.inl ⟨k, hk, ?_⟩)
      cases hs : strictEq ((mappedOf c stores this).get k) (this.state.get k) with
      | false => rfl
      | true => exact absurd (strictEq_eq hs).symm hv

/-! ## Claims about `getInitialState` and `Provider` -/

/-- C4: the context `Provider.getChildContext` returns holds `props.store`,
and a wrapper constructed under that context takes it as its store: it maps
its initial state from that store, `update` maps from that store, and mounting
subscribes to that store. -/
theorem provider_store_reaches_wrapper (c : Connect) (stores : Stores) (s : Addr)
    (children : List Addr) (props : Obj) (cb : Callback) :
    (Provider.getChildContext { store := some s, children := children }).store = some s
    ∧ (getInitialState c stores
        (Provider.getChildContext { store := some s, children := children }) props).1.store
        = some s
    ∧ (getInitialState c stores
        (Provider.getChildContext { store := some s, children := children }) props).1.state
        = c.mapStateToProps (stores s).getState props
    ∧ mappedOf c stores (getInitialState c stores
        (Provider.getChildContext { store := some s, children := children }) props).1
        = c.mapStateToProps (stores s).getState props
    ∧ componentDidMount stores (getInitialState c stores
        (Provider.getChildContext { store := some s, children := children }) props).1 cb
        = Except.ok (Function.update stores s ((stores s).subscribe cb)) :=
  ⟨rfl, rfl, rfl, rfl, rfl⟩

/-- C5: after `getInitialState` the stored state of the wrapper is
`mapStateToProps` applied to the current state of the context store and to
the own props of the component. -/
theorem getInitialState_maps_current_state (c : Connect) (stores : Stores) (a : Addr)
    (props : Obj) :
    (getInitialState c stores { store := some a } props).1.state
      = c.mapStateToProps (stores a).getState props
    ∧ (getInitialState c stores { store := some a } props).1.props = props :=
  ⟨rfl, rfl⟩

/-- C9 fails on the code: `getInitialState` has no `return`.  For every store
and own props it returns undefined, while the mapping it computed is only
assigned to `this.state`. -/
theorem getInitialState_returns_undefined (c : Connect) (stores : Stores)
    (context : Context) (props : Obj) :
    (getInitialState c stores context props).2 = none
    ∧ (getInitialState c stores context props).2
        ≠ some (c.mapStateToProps (readState stores context.store) props) :=
  ⟨rfl, by simp [getInitialState]⟩

/-- C10 fails on the code: a wrapper constructed without a context store maps
from the empty state in `getInitialState` and `update`, but
`componentDidMount` and `componentWillUnmount` read a method of the undefined
`this.store` and throw. -/
theorem storeless_wrapper_mount_throws (c : Connect) (stores : Stores) (props : Obj)
    (cb : Callback) :
    (getInitialState c stores { store := none } props).1.state
      = c.mapStateToProps (Obj.plain []) props
    ∧ mappedOf c stores (getInitialState c stores { store := none } props).1
        = c.mapStateToProps (Obj.plain []) props
    ∧ componentDidMount stores (getInitialState c stores { store := none } props).1 cb
        = Except.error JsError.typeError
    ∧ componentWillUnmount stores (getInitialState c stores { store := none } props).1 cb
        = Except.error JsError.typeError :=
  ⟨rfl, rfl, rfl, rfl⟩

/-! ## `assign`, `createElement` and `render` -/

theorem Members.lookup_set (m : Members) (k k' : String) (v : Val) :
    (m.set k v).lookup k' = if k = k' then some v else m.lookup k' := by
  induction m with
  | nil => simp [Members.set, Members.lookup]
  | cons e rest ih =>
    obtain ⟨k0, v0⟩ := e
    by_cases h0 : k0 = k
    · subst h0
      by_cases h1 : k0 = k' <;> simp [Members.set, Members.lookup, h1]
    · by_cases h1 : k0 = k'
      · subst h1
        have h2 : ¬ k = k0 := fun h => h0 h.symm
        simp [Members.set, Members.lookup, h0, h2]
      · simp [Members.set, Members.lookup, h0, h1, ih]

theorem Obj.own_lookup_set (o : Obj) (k k' : String) (v : Val) :
    (o.set k v).own.lookup k' = if k = k' then some v else o.own.lookup k' := by
  simp [Obj.set, Members.lookup_set]

theorem Obj.get_of_own {o : Obj} {k : String} {v : Val} (h : o.own.lookup k = some v) :
    o.get k = v := by
  simp [Obj.get, Obj.lookup, h]

theorem Obj.mem_keys_of_own {o : Obj} {k : String} {v : Val} (h : o.own.lookup k = some v) :
    k ∈ o.keys := by
  unfold Obj.keys
  apply List.mem_append_left
  exact (Members.mem_keys_iff o.own k).2 (by simp [h])

/-- The writes of `assign`, key by key. -/
theorem Obj.own_lookup_foldl_set (src : Obj) (k : String) (ks : List String) (o : Obj) :
    (ks.foldl (fun o i => o.set i (src.get i)) o).own.lookup k
      = if k ∈ ks then some (src.get k) else o.own.lookup k := by
  induction ks generalizing o with
  | nil => simp
  | cons i rest ih =>
    rw [List.foldl_cons, ih, Obj.own_lookup_set]
    by_cases h1 : k ∈ rest
    · simp [h1]
    · by_cases h2 : i = k
      · subst h2
        simp [h1]
      · have h3 : ¬ k = i := fun h => h2 h.symm
        simp [h1, h2, h3]

theorem assignObj_own_lookup (obj src : Obj) (k : String) :
    (assignObj obj src).own.lookup k
      = if k ∈ src.keys then some (src.get k) else obj.own.lookup k := by
  unfold assignObj
  rw [Obj.own_lookup_foldl_set]

/-- The merge of line 55, key by key. -/
theorem merged_own_lookup (boundActions props state : Obj) (k : String) :
    (assignObj (assignObj (assignObj (Obj.plain []) boundActions) props) state).own.lookup k
      = mergedAt boundActions props state k := by
  rw [assignObj_own_lookup, assignObj_own_lookup, assignObj_own_lookup]
  simp [mergedAt, Obj.plain, Members.lookup]

/-- A loop of conditional property writes, key by key. -/
theorem Obj.own_lookup_foldl_cond (g : String → Bool) (val : String → Val) (k : String)
    (ks : List String) (p : Obj) :
    (ks.foldl (fun p j => if g j = true then p.set j (val j) else p) p).own.lookup k
      = if k ∈ ks ∧ g k = true then some (val k) else p.own.lookup k := by
  induction ks generalizing p with
  | nil => simp
  | cons j rest ih =>
    rw [List.foldl_cons, ih]
    by_cases hjk : j = k
    · subst hjk
      cases hg : g j with
      | true => simp [Obj.own_lookup_set]
      | false => simp
    · have hkj : ¬ k = j := fun h => hjk h.symm
      cases hg : g j with
      | true => simp [Obj.own_lookup_set, hjk, hkj]
      | false => simp [hkj]

theorem copyProps_own_lookup (cfg : Obj) (k : String) :
    (copyProps cfg).own.lookup k
      = if reservedProps.contains k = true then none else cfg.own.lookup k := by
  have h := Obj.own_lookup_foldl_cond
    (fun j => cfg.hasOwn j && !reservedProps.contains j) cfg.get k cfg.keys (Obj.plain [])
  unfold copyProps
  refine h.trans ?_
  show (if k ∈ cfg.keys ∧ (cfg.hasOwn k && !reservedProps.contains k) = true
        then some (cfg.get k) else (Obj.plain []).own.lookup k)
      = if reservedProps.contains k = true then none else cfg.own.lookup k
  generalize reservedProps.contains k = r
  have hnil : (Obj.plain []).own.lookup k = none := rfl
  rw [hnil]
  cases hl : cfg.own.lookup k with
  | none =>
    have h1 : cfg.hasOwn k = false := by simp [Obj.hasOwn, hl]
    cases r <;> simp [h1]
  | some v =>
    have h1 : cfg.hasOwn k = true := by simp [Obj.hasOwn, hl]
    have h2 : k ∈ cfg.keys := Obj.mem_keys_of_own hl
    have h3 : cfg.get k = v := Obj.get_of_own hl
    cases r <;> simp [h1, h2, h3]

/-- A key outside `defaultProps` is left alone by the second loop. -/
theorem fill_fold_of_not_mem (d : Obj) (k : String) (ks : List String) (p : Obj)
    (hk : k ∉ ks) :
    (ks.foldl (fun p j =>
        if strictEq (p.get j) Val.undefined then p.set j (d.get j) else p) p).own.lookup k
      = p.own.lookup k := by
  induction ks generalizing p with
  | nil => rfl
  | cons j rest ih =>
    have hj : ¬ j = k := fun h => hk (h ▸ List.mem_cons_self j rest)
    have hrest : k ∉ rest := fun h => hk (List.mem_cons_of_mem j h)
    rw [List.foldl_cons, ih _ hrest]
    split
    · simp [Obj.own_lookup_set, hj]
    · rfl

/-- A prop that is not undefined is left alone by the second loop. -/
theorem fill_fold_of_defined (d : Obj) (k : String) (v : Val) (ks : List String) (p : Obj)
    (hp : p.own.lookup k = some v) (hv : strictEq v Val.undefined = false) :
    (ks.foldl (fun p j =>
        if strictEq (p.get j) Val.undefined then p.set j (d.get j) else p) p).own.lookup k
      = some v := by
  induction ks generalizing p with
  | nil => exact hp
  | cons j rest ih =>
    rw [List.foldl_cons]
    apply ih
    by_cases hj : j = k
    · subst hj
      rw [Obj.get_of_own hp, hv]
      simpa using hp
    · split
      · simp [Obj.own_lookup_set, hj, hp]
      · exact hp

theorem fillDefaults_of_not_mem (child : Component) (p : Obj) (k : String)
    (hk : k ∉ child.defaultKeys) :
    (fillDefaults child.defaultProps p).own.lookup k = p.own.lookup k := by
  unfold Component.defaultKeys at hk
  cases hd : child.defaultProps with
  | none => rfl
  | some d =>
    rw [hd] at hk
    exact fill_fold_of_not_mem d k d.keys p hk

theorem fillDefaults_of_defined (dp : Option Obj) (p : Obj) (k : String) (v : Val)
    (hp : p.own.lookup k = some v) (hv : strictEq v Val.undefined = false) :
    (fillDefaults dp p).own.lookup k = some v := by
  cases dp with
  | none => exact hp
  | some d => exact fill_fold_of_defined d k v d.keys p hp hv

theorem Heap.read_write (h : Heap) (a b : Addr) (o : Obj) :
    (h.write a o).read b = if b = a then o else h.read b := by
  unfold Heap.write Heap.read
  by_cases hb : b = a
  · subst hb
    simp
  · simp [Function.update, hb]

theorem Heap.read_alloc (h : Heap) (b : Addr) (o : Obj) :
    (h.alloc o).1.read b = if b = h.next then o else h.read b := by
  unfold Heap.alloc Heap.read
  by_cases hb : b = h.next
  · subst hb
    simp
  · simp [Function.update, hb]

theorem Heap.alloc_addr (h : Heap) (o : Obj) : (h.alloc o).2 = h.next :=
  rfl

theorem Heap.alloc_next (h : Heap) (o : Obj) : (h.alloc o).1.next = h.next + 1 :=
  rfl

theorem Heap.write_next (h : Heap) (a : Addr) (o : Obj) : (h.write a o).next = h.next :=
  rfl

/-- The props object `Child` receives, from the three objects before
`render`. -/
theorem childProps_eq (child : Component) (h : Heap) (this : WrapperRefs)
    (hA : this.boundActions < h.next) (hP : this.props < h.next)
    (hS : this.state < h.next) :
    childProps child h this
      = fillDefaults child.defaultProps (copyProps
          (assignObj (assignObj (assignObj (Obj.plain []) (h.read this.boundActions))
            (h.read this.props)) (h.read this.state))) := by
  have hA' : ¬ this.boundActions = h.next := Nat.ne_of_lt hA
  have hP' : ¬ this.props = h.next := Nat.ne_of_lt hP
  have hS' : ¬ this.state = h.next := Nat.ne_of_lt hS
  simp [childProps, render, createElement, assign, Heap.read_write, Heap.read_alloc,
    Heap.alloc_addr, Heap.alloc_next, Heap.write_next, hA', hP', hS']

/-- An object that exists before `render` has the same contents after it. -/
theorem render_preserves (child : Component) (h : Heap) (this : WrapperRefs) (a : Addr)
    (ha : a < h.next) :
    (render child h this).1.read a = h.read a := by
  have ha' : ¬ a = h.next := Nat.ne_of_lt ha
  have ha2 : ¬ a = h.next + 1 := Nat.ne_of_lt (Nat.lt_succ_of_lt ha)
  simp [render, createElement, assign, Heap.read_write, Heap.read_alloc,
    Heap.alloc_addr, Heap.alloc_next, Heap.write_next, ha', ha2]

/-- C6, as stated, fails: with mapped state `{key: "k1"}` the key `key` of
the mapped state does not reach `Child`: React's `createElement` keeps the
reserved keys for itself; the props `Child` receives do not enumerate `key`
and read undefined there. -/
theorem render_drops_reserved_key :
    "key" ∈ (keyHeap.read 2).keys
    ∧ (keyHeap.read 2).get "key" = Val.str "k1"
    ∧ "key" ∉ (childProps { id := 7, defaultProps := none } keyHeap
        { boundActions := 0, props := 1, state := 2 }).keys
    ∧ (childProps { id := 7, defaultProps := none } keyHeap
        { boundActions := 0, props := 1, state := 2 }).get "key" = Val.undefined := by
  refine ⟨?_, ?_, ?_, ?_⟩
  · decide
  · decide
  · decide
  · decide

/-- C6 (amended): `render` creates an element of `Child` from the shallow
merge of the bound actions, then the own props, then the mapped state.  For
every key that is neither one of React's reserved keys nor `__proto__`, and
that `defaultProps` of `Child` does not list or whose merged value is not
undefined, `Child` receives the value of the mapped state if it has the key,
else that of the own props if they have it, else that of the bound actions,
and no such key otherwise; a reserved key that `defaultProps` does not list
is not among the props of `Child`; every such key of the mapped state
reaches `Child` with its mapped value; and the three objects hold after
`render` what they held before. -/
theorem render_passes_merged_props (child : Component) (h : Heap) (this : WrapperRefs)
    (hA : this.boundActions < h.next) (hP : this.props < h.next)
    (hS : this.state < h.next) :
    (render child h this).2.type = child.id
    ∧ (∀ k, k ∉ reservedProps → k ≠ "__proto__" →
        (k ∉ child.defaultKeys
          ∨ ∃ v, mergedAt (h.read this.boundActions) (h.read this.props)
              (h.read this.state) k = some v ∧ strictEq v Val.undefined = false) →
        (childProps child h this).own.lookup k
          = mergedAt (h.read this.boundActions) (h.read this.props) (h.read this.state) k)
    ∧ (∀ k, k ∈ reservedProps → k ∉ child.defaultKeys →
        (childProps child h this).own.lookup k = none)
    ∧ (∀ k, k ∈ (h.read this.state).keys → k ∉ reservedProps → k ≠ "__proto__" →
        (k ∉ child.defaultKeys ∨ strictEq ((h.read this.state).get k) Val.undefined = false) →
        (childProps child h this).hasOwn k = true
        ∧ (childProps child h this).get k = (h.read this.state).get k)
    ∧ (render child h this).1.read this.boundActions = h.read this.boundActions
    ∧ (render child h this).1.read this.props = h.read this.props
    ∧ (render child h this).1.read this.state = h.read this.state := by
  have hcp := childProps_eq child h this hA hP hS
  have hcopy : ∀ k, k ∉ reservedProps →
      (copyProps (assignObj (assignObj (assignObj (Obj.plain []) (h.read this.boundActions))
        (h.read this.props)) (h.read this.state))).own.lookup k
        = mergedAt (h.read this.boundActions) (h.read this.props) (h.read this.state) k := by
    intro k hk
    have hr : ¬ reservedProps.contains k = true := by simpa using hk
    rw [copyProps_own_lookup, if_neg hr, merged_own_lookup]
  have hmain : ∀ k, k ∉ reservedProps →
      (k ∉ child.defaultKeys
        ∨ ∃ v, mergedAt (h.read this.boundActions) (h.read this.props)
            (h.read this.state) k = some v ∧ strictEq v Val.undefined = false) →
      (childProps child h this).own.lookup k
        = mergedAt (h.read this.boundActions) (h.read this.props) (h.read this.state) k := by
    intro k hk hc
    rw [hcp]
    rcases hc with hd | ⟨v, hv, hu⟩
    · rw [fillDefaults_of_not_mem child _ k hd]
      exact hcopy k hk
    · rw [hv]
      exact fillDefaults_of_defined _ _ k v ((hcopy k hk).trans hv) hu
  refine ⟨rfl, fun k hk _ hc => hmain k hk hc, ?_, ?_, render_preserves child h this _ hA,
    render_preserves child h this _ hP, render_preserves child h this _ hS⟩
  · intro k hk hd
    have hr : reservedProps.contains k = true := by simpa using hk
    rw [hcp, fillDefaults_of_not_mem child _ k hd, copyProps_own_lookup, if_pos hr]
  · intro k hk hr _ hc
    have hm : mergedAt (h.read this.boundActions) (h.read this.props) (h.read this.state) k
        = some ((h.read this.state).get k) := by
      simp [mergedAt, hk]
    have hl : (childProps child h this).own.lookup k = some ((h.read this.state).get k) := by
      rw [hmain k hr (hc.imp id (fun hu => ⟨_, hm, hu⟩)), hm]
    exact ⟨by simp [Obj.hasOwn, hl], Obj.get_of_own hl⟩

/-- Witness of C6 (amended) on `sampleHeap`, for a `Child` without
`defaultProps`: `Child` receives `b` from the mapped state, `a` from the own
props and `go` from the bound actions, and the own props are untouched. -/
theorem render_passes_merged_props_witness :
    (childProps { id := 7, defaultProps := none } sampleHeap
        { boundActions := 0, props := 1, state := 2 }).own.lookup "b" = some (Val.num 3)
    ∧ (childProps { id := 7, defaultProps := none } sampleHeap
        { boundActions := 0, props := 1, state := 2 }).own.lookup "a" = some (Val.num 1)
    ∧ (childProps { id := 7, defaultProps := none } sampleHeap
        { boundActions := 0, props := 1, state := 2 }).own.lookup "go" = some (Val.ref 9)
    ∧ (render { id := 7, defaultProps := none } sampleHeap
        { boundActions := 0, props := 1, state := 2 }).1.read 1
        = Obj.plain [("a", Val.num 1), ("b", Val.num 2)] :=
  have h := render_passes_merged_props { id := 7, defaultProps := none } sampleHeap
    { boundActions := 0, props := 1, state := 2 } (by decide) (by decide) (by decide)
  ⟨(h.2.1 "b" (by decide) (by decide) (Or.inl (by decide))).trans (by decide),
    (h.2.1 "a" (by decide) (by decide) (Or.inl (by decide))).trans (by decide),
    (h.2.1 "go" (by decide) (by decide) (Or.inl (by decide))).trans (by decide),
    h.2.2.2.2.2.1.trans (by decide)⟩

/-! ## Subscription: mount, notifications, unmount -/

theorem World.notify_calls (w : World) (l : List Callback) : (w.notify l).2 = l := by
  induction l generalizing w with
  | nil => rfl
  | cons cb rest ih => simp [World.notify, ih]

theorem World.notify_stores (w : World) (l : List Callback) :
    (w.notify l).1.stores = w.stores := by
  induction l generalizing w with
  | nil => rfl
  | cons cb rest ih =>
    simp only [World.notify]
    rw [ih]
    rfl

theorem World.invoke_wrapper_store (w : World) (cb c : Callback) :
    ((w.invoke cb).wrappers c).store = (w.wrappers c).store := by
  unfold World.invoke
  by_cases h : c = cb
  · subst h
    simp [update_store]
  · simp [Function.update_noteq h]

theorem World.notify_wrapper_store (w : World) (l : List Callback) (c : Callback) :
    ((w.notify l).1.wrappers c).store = (w.wrappers c).store := by
  induction l generalizing w with
  | nil => rfl
  | cons cb rest ih =>
    simp only [World.notify]
    rw [ih, World.invoke_wrapper_store]

theorem World.setState_calls (w : World) (a : Addr) (patch : Obj) :
    (w.setState a patch).2 = (w.stores a).listeners := by
  unfold World.setState
  simp [World.notify_calls, Store.setState]

theorem World.setState_listeners (w : World) (a b : Addr) (patch : Obj) :
    ((w.setState a patch).1.stores b).listeners = (w.stores b).listeners := by
  unfold World.setState
  simp only [World.notify_stores]
  by_cases h : b = a
  · subst h
    simp [Store.setState]
  · simp [Function.update_noteq h]

theorem World.setState_wrapper_store (w : World) (a : Addr) (patch : Obj) (c : Callback) :
    (((w.setState a patch).1).wrappers c).store = (w.wrappers c).store := by
  unfold World.setState
  simp only [World.notify_wrapper_store]

theorem Store.count_subscribe (s : Store) (cb c : Callback) (h : cb ≠ c) :
    (s.subscribe cb).listeners.count c = s.listeners.count c := by
  unfold Store.subscribe
  split
  · rfl
  · simp [List.count_append, List.count_singleton, h]

theorem Store.count_unsubscribe (s : Store) (cb c : Callback) (h : cb ≠ c) :
    (s.unsubscribe cb).listeners.count c = s.listeners.count c := by
  unfold Store.unsubscribe
  apply List.count_filter
  simpa using fun hc => h hc.symm

/-- An event foreign to the wrapper `c` keeps the store of `c` and the number
of registrations of `c` at every store. -/
theorem World.step_foreign (c : Callback) (w w' : World) (e : Event)
    (hf : e.foreignTo c = true) (hs : w.step e = Except.ok w') :
    (w'.wrappers c).store = (w.wrappers c).store
    ∧ ∀ b, (w'.stores b).listeners.count c = (w.stores b).listeners.count c := by
  cases e with
  | setState a patch =>
    simp only [World.step, Except.ok.injEq] at hs
    subst hs
    exact ⟨World.setState_wrapper_store w a patch c,
      fun b => by rw [World.setState_listeners]⟩
  | construct cb context props =>
    have hne : c ≠ cb := by
      intro h
      simp [Event.foreignTo, h] at hf
    simp only [World.step, Except.ok.injEq] at hs
    subst hs
    exact ⟨by simp [Function.update_noteq hne], fun b => rfl⟩
  | didMount cb =>
    have hne : cb ≠ c := by
      intro h
      simp [Event.foreignTo, h] at hf
    unfold World.step componentDidMount at hs
    cases hst : (w.wrappers cb).store with
    | none => simp [hst] at hs
    | some a =>
      simp only [hst, Except.ok.injEq] at hs
      subst hs
      refine ⟨rfl, fun b => ?_⟩
      by_cases hb : b = a
      · subst hb
        simp [Store.count_subscribe _ _ _ hne]
      · simp [Function.update_noteq hb]
  | receiveProps cb p =>
    simp only [World.step, Except.ok.injEq] at hs
    subst hs
    refine ⟨?_, fun b => rfl⟩
    by_cases h : c = cb
    · subst h
      simp [componentWillReceiveProps, update_store]
    · simp [Function.update_noteq h]
  | willUnmount cb =>
    have hne : cb ≠ c := by
      intro h
      simp [Event.foreignTo, h] at hf
    unfold World.step componentWillUnmount at hs
    cases hst : (w.wrappers cb).store with
    | none => simp [hst] at hs
    | some a =>
      simp only [hst, Except.ok.injEq] at hs
      subst hs
      refine ⟨rfl, fun b => ?_⟩
      by_cases hb : b = a
      · subst hb
        simp [Store.count_unsubscribe _ _ _ hne]
      · simp [Function.update_noteq hb]

theorem World.run_foreign (c : Callback) (es : List Event) (w w' : World)
    (hf : ∀ e ∈ es, e.foreignTo c = true) (hr : w.run es = Except.ok w') :
    (w'.wrappers c).store = (w.wrappers c).store
    ∧ ∀ b, (w'.stores b).listeners.count c = (w.stores b).listeners.count c := by
  induction es generalizing w with
  | nil =>
    simp only [World.run, Except.ok.injEq] at hr
    subst hr
    exact ⟨rfl, fun b => rfl⟩
  | cons e rest ih =>
    unfold World.run at hr
    cases hst : w.step e with
    | error err => simp [hst] at hr
    | ok w1 =>
      simp only [hst] at hr
      have h1 := World.step_foreign c w w1 e (hf e (List.mem_cons_self e rest)) hst
      have h2 := ih w1 (fun e' he' => hf e' (List.mem_cons_of_mem e he')) hr
      exact ⟨h2.1.trans h1.1, fun b => (h2.2 b).trans (h1.2 b)⟩

theorem World.step_didMount (w : World) (c : Callback) (a : Addr)
    (hstore : (w.wrappers c).store = some a) :
    w.step (Event.didMount c) = Except.ok
      { w with stores := Function.update w.stores a ((w.stores a).subscribe c) } := by
  simp [World.step, componentDidMount, hstore]

theorem World.step_willUnmount (w : World) (c : Callback) (a : Addr)
    (hstore : (w.wrappers c).store = some a) :
    w.step (Event.willUnmount c) = Except.ok
      { w with stores := Function.update w.stores a ((w.stores a).unsubscribe c) } := by
  simp [World.step, componentWillUnmount, hstore]

theorem Store.count_unsubscribe_self (s : Store) (c : Callback) :
    (s.unsubscribe c).listeners.count c = 0 := by
  unfold Store.unsubscribe
  apply List.count_eq_zero.2
  simp

theorem Store.unsubscribe_subscribe (s : Store) (c : Callback) (h : c ∉ s.listeners) :
    ((s.subscribe c).unsubscribe c).listeners = s.listeners := by
  unfold Store.subscribe Store.unsubscribe
  simp only [h, if_false, List.filter_append]
  have h1 : s.listeners.filter (fun l => l != c) = s.listeners := by
    apply List.filter_eq_self.2
    intro x hx
    have : x ≠ c := fun hxc => h (hxc ▸ hx)
    simpa using this
  simp [h1]

/-- C3: mounting subscribes the `update` of the wrapper to its context store
and unmounting unsubscribes it.  For a wrapper `c` with context store `a`,
registered nowhere before it mounts: mounting succeeds; after any events
other than the construction, mount or unmount of `c`, every `setState` on
`a` calls `update` of `c` exactly once (and a `setState` on another store
does not call it); unmounting then succeeds, and after any further such
events no `setState` calls `update` of `c`; and mount followed by unmount
leaves the listeners of every store as they were. -/
theorem mount_subscribes_unmount_unsubscribes (w : World) (c : Callback) (a : Addr)
    (hstore : (w.wrappers c).store = some a)
    (hfresh : ∀ b, c ∉ (w.stores b).listeners) :
    ∃ w1, w.step (Event.didMount c) = Except.ok w1
      ∧ (∀ es w2, (∀ e ∈ es, e.foreignTo c = true) → w1.run es = Except.ok w2 →
          (∀ b patch, (w2.setState b patch).2.count c = if b = a then 1 else 0)
          ∧ ∃ w3, w2.step (Event.willUnmount c) = Except.ok w3
              ∧ ∀ es' w4, (∀ e ∈ es', e.foreignTo c = true) → w3.run es' = Except.ok w4 →
                  ∀ b patch, (w4.setState b patch).2.count c = 0)
      ∧ ∃ w3, w1.step (Event.willUnmount c) = Except.ok w3
          ∧ ∀ b, (w3.stores b).listeners = (w.stores b).listeners := by
  refine ⟨_, World.step_didMount w c a hstore, ?_, ?_⟩
  · intro es w2 hes hrun
    obtain ⟨hst2, hcnt2⟩ := World.run_foreign c es _ w2 hes hrun
    have hst2' : (w2.wrappers c).store = some a := hst2.trans hstore
    have hcount : ∀ b, (w2.stores b).listeners.count c = if b = a then 1 else 0 := by
      intro b
      rw [hcnt2 b]
      by_cases hb : b = a
      · subst hb
        have h0 : (w.stores b).listeners.count c = 0 :=
          List.count_eq_zero_of_not_mem (hfresh b)
        simp [Store.subscribe, hfresh b, List.count_append, h0]
      · simp [Function.update_noteq hb, hb, List.count_eq_zero_of_not_mem (hfresh b)]
    refine ⟨fun b patch => by rw [World.setState_calls, hcount b], _,
      World.step_willUnmount w2 c a hst2', ?_⟩
    intro es' w4 hes' hrun' b patch
    obtain ⟨_, hcnt4⟩ := World.run_foreign c es' _ w4 hes' hrun'
    rw [World.setState_calls, hcnt4 b]
    by_cases hb : b = a
    · subst hb
      simp [Store.count_unsubscribe_self]
    · have := hcount b
      simp only [hb, if_false] at this
      simp [Function.update_noteq hb, this]
  · refine ⟨_, World.step_willUnmount _ c a hstore, ?_⟩
    intro b
    by_cases hb : b = a
    · subst hb
      simp [Store.unsubscribe_subscribe _ _ (hfresh b)]
    · simp [Function.update_noteq hb]

/-- Witness of C3: the wrapper 5 of `sampleWorld`, on the store at 0. -/
theorem mount_subscribes_unmount_unsubscribes_witness :
    ∃ w1, sampleWorld.step (Event.didMount 5) = Except.ok w1
      ∧ (∀ es w2, (∀ e ∈ es, e.foreignTo 5 = true) → w1.run es = Except.ok w2 →
          (∀ b patch, (w2.setState b patch).2.count 5 = if b = 0 then 1 else 0)
          ∧ ∃ w3, w2.step (Event.willUnmount 5) = Except.ok w3
              ∧ ∀ es' w4, (∀ e ∈ es', e.foreignTo 5 = true) → w3.run es' = Except.ok w4 →
                  ∀ b patch, (w4.setState b patch).2.count 5 = 0)
      ∧ ∃ w3, w1.step (Event.willUnmount 5) = Except.ok w3
          ∧ ∀ b, (w3.stores b).listeners = (sampleWorld.stores b).listeners :=
  mount_subscribes_unmount_unsubscribes sampleWorld 5 0 rfl
    (fun b => by simp [sampleWorld, noStores])

end Unistore
